import Mathlib

/-!
Verification development for the async memoizer `memoizeAsync` in
`src/memoizeAsync.ts`.

The TypeScript source is shallowly embedded as follows.

* JavaScript argument values are modelled by the inductive `JsValue`
  (null, undefined, booleans, numbers as `Int`, strings, functions
  identified by a `Nat` id, arrays, and objects as ordered field lists —
  JS objects enumerate string keys in insertion order, which is the
  order `JSON.stringify` uses).
* `JSON.stringify` is modelled by `stringifyVal` (functions and
  `undefined` serialize to `none`: inside an array they print as
  "null", inside an object the member is omitted — exactly the
  ECMAScript behaviour).  Key derivation `JSON.stringify(args)` is
  `deriveKey`.
* The closure state of one memoizer instance is `CacheState`: the
  `Map` is an association list `cache`, promise handles are numbered
  by `nextId` (a promise is identified by its id; two callers share a
  handle iff they hold the same id), and `invocations` counts how
  often the wrapped function `fn` has been started.
* One synchronous run of the wrapper body (lines 20–47 of the source)
  is the atomic step `callStep`: JavaScript runs it without suspension,
  so lookup / expiry-eviction / invoke / publish happen as one unit.
  The handle is published (`mapInsert`) in the same step that starts
  the computation, before any resolution event can run.
* Resolution of a pending handle is a separate, later event.  A
  successful resolution changes no cache state (the code attaches no
  success observer).  A failed resolution runs the `.catch` callback:
  `rejectStep` deletes the entry at the captured key (unconditionally,
  as the code does) and re-throws the same error (`catchHandler`).
* `memoized.clear()` is `clearStep`.
* A wrapped function that throws synchronously at its call site (so no
  promise is ever produced) is modelled by `callStepThrowing`: the
  wrapper body runs up to `fn(...args)` and the exception escapes
  before `cache.set` is reached.
-/

namespace MemoSpec

/-- Model of a JavaScript value that can appear in an argument tuple.
Objects are ordered association lists of string keys (JS insertion
order); functions are identified by an id (reference identity). -/
inductive JsValue where
  | jnull
  | jundef
  | jbool (b : Bool)
  | jnum (n : Int)
  | jstr (s : String)
  | jfunc (id : Nat)
  | jarr (elems : List JsValue)
  | jobj (fields : List (String × JsValue))

/-- JSON string escaping for the characters relevant here. -/
def escapeChar (c : Char) : String :=
  if c = '"' then "\\\"" else
  if c = '\\' then "\\\\" else
  if c = '\n' then "\\n" else
  if c = '\r' then "\\r" else
  if c = '\t' then "\\t" else
  String.singleton c

/-- A JSON string literal: quotes around the escaped characters. -/
def jsonQuote (s : String) : String :=
  "\"" ++ String.join (s.toList.map escapeChar) ++ "\""

/-- Comma-join, as `Array.prototype.join` with separator ",". -/
def joinComma : List String → String
  | [] => ""
  | [s] => s
  | s :: rest => s ++ "," ++ joinComma rest

mutual

/-- `JSON.stringify` on one value.  `none` models the serializations
that produce no JSON text (`undefined` and functions). -/
def stringifyVal : JsValue → Option String
  | .jnull => some "null"
  | .jundef => none
  | .jbool b => some (if b then "true" else "false")
  | .jnum n => some (toString n)
  | .jstr s => some (jsonQuote s)
  | .jfunc _ => none
  | .jarr xs => some ("[" ++ joinComma (stringifyElems xs) ++ "]")
  | .jobj fs => some ("\x7b" ++ joinComma (stringifyMembers fs) ++ "\x7d")

/-- Array elements: a non-serializable element prints as "null". -/
def stringifyElems : List JsValue → List String
  | [] => []
  | x :: xs => (stringifyVal x).getD "null" :: stringifyElems xs

/-- Object members in field order: non-serializable members are omitted. -/
def stringifyMembers : List (String × JsValue) → List String
  | [] => []
  | (k, v) :: fs =>
    match stringifyVal v with
    | none => stringifyMembers fs
    | some sv => (jsonQuote k ++ ":" ++ sv) :: stringifyMembers fs

end

/-- Line 21 of the source: `const key = JSON.stringify(args)`.  The
argument tuple is always an array, so the result is always a string. -/
def deriveKey (args : List JsValue) : String :=
  (stringifyVal (.jarr args)).getD "undefined"

/-- Property lookup in an object, by key. -/
def lookupField (fs : List (String × JsValue)) (k : String) : Option JsValue :=
  match fs with
  | [] => none
  | (k₁, v) :: rest => if k₁ = k then some v else lookupField rest k

mutual

/-- Deep structural value equality of JavaScript values (the notion used
by lodash `isEqual` / Jest `toEqual`): objects compare by key set and
field values, insensitive to insertion order; functions compare by
reference identity. -/
def deepEqual : JsValue → JsValue → Bool
  | .jnull, .jnull => true
  | .jundef, .jundef => true
  | .jbool a, .jbool b => a == b
  | .jnum a, .jnum b => a == b
  | .jstr a, .jstr b => a == b
  | .jfunc i, .jfunc j => i == j
  | .jarr xs, .jarr ys => deepEqualList xs ys
  | .jobj fs, .jobj gs => fs.length == gs.length && deepEqualSub fs gs
  | _, _ => false

/-- Element-wise deep equality of arrays. -/
def deepEqualList : List JsValue → List JsValue → Bool
  | [], [] => true
  | x :: xs, y :: ys => deepEqual x y && deepEqualList xs ys
  | _, _ => false

/-- Every field of the first object deep-equals the corresponding field
of the second, located by key rather than position. -/
def deepEqualSub : List (String × JsValue) → List (String × JsValue) → Bool
  | [], _ => true
  | (k, v) :: fs, gs =>
    (match lookupField gs k with
     | some w => deepEqual v w
     | none => false) && deepEqualSub fs gs

end

mutual

/-- Values containing no object (arrays of scalars, nested arbitrarily). -/
def objFree : JsValue → Bool
  | .jobj _ => false
  | .jarr xs => objFreeList xs
  | _ => true

/-- All values of the list are object-free. -/
def objFreeList : List JsValue → Bool
  | [] => true
  | x :: xs => objFree x && objFreeList xs

end

/-- One cache entry: `{ promise; expires }` as in the source.  The
promise is identified by its handle id. -/
structure Entry where
  promise : Nat
  expires : Int
deriving DecidableEq, Repr

/-- The closure state of one memoizer instance: the `Map`, the next
fresh handle id, and the number of underlying invocations started. -/
structure CacheState where
  cache : List (String × Entry)
  nextId : Nat
  invocations : Nat
deriving DecidableEq, Repr

/-- `cache.get(key)` / `cache.has(key)`. -/
def mapFind (m : List (String × Entry)) (k : String) : Option Entry :=
  match m with
  | [] => none
  | (k₁, e) :: rest => if k₁ = k then some e else mapFind rest k

/-- `cache.set(key, e)`: replace the binding if present, else append. -/
def mapInsert (m : List (String × Entry)) (k : String) (e : Entry) :
    List (String × Entry) :=
  match m with
  | [] => [(k, e)]
  | (k₁, e₁) :: rest =>
    if k₁ = k then (k, e) :: rest else (k₁, e₁) :: mapInsert rest k e

/-- `cache.delete(key)`: drop the binding for `k`. -/
def mapDelete (m : List (String × Entry)) (k : String) :
    List (String × Entry) :=
  m.filter (fun p => p.1 != k)

/-- The state with no cache entries, as right after `memoizeAsync(fn, ttl)`. -/
def initState : CacheState where
  cache := []
  nextId := 0
  invocations := 0

/-- Lines 34–44 of the source: invoke `fn(...args)` obtaining a fresh
pending handle wrapped with the `.catch` cleanup, and `cache.set` it
with `expires = now + ttlMs`; return the handle.  Invocation and
publication happen inside the same atomic step, before the handle can
resolve. -/
def createAndCache (key : String) (now ttlMs : Int) (s : CacheState) :
    Nat × CacheState :=
  let p := s.nextId
  (p, { cache := mapInsert s.cache key ⟨p, now + ttlMs⟩
        nextId := s.nextId + 1
        invocations := s.invocations + 1 })

/-- Lines 20–47 of the source, one synchronous wrapper run at time
`now` for a derived key: on a valid hit return the cached handle
unchanged; on an expired hit delete the entry first; otherwise create,
publish and return a fresh handle. -/
def callStep (key : String) (now ttlMs : Int) (s : CacheState) :
    Nat × CacheState :=
  match mapFind s.cache key with
  | some entry =>
    if entry.expires > now then
      (entry.promise, s)
    else
      createAndCache key now ttlMs { s with cache := mapDelete s.cache key }
  | none => createAndCache key now ttlMs s

/-- The full wrapper including key derivation, line 21 + lines 25–46. -/
def memoCall (args : List JsValue) (now ttlMs : Int) (s : CacheState) :
    Nat × CacheState :=
  callStep (deriveKey args) now ttlMs s

/-- Outcome of a settled promise. -/
inductive Outcome where
  | ok (v : Int)
  | err (e : Int)
deriving DecidableEq, Repr

/-- Lines 35–39: the `.catch` callback re-throws the error it
received, unmodified, after the cache cleanup; success passes through. -/
def catchHandler : Outcome → Outcome
  | .ok v => .ok v
  | .err e => .err e

/-- The event of a pending computation for `key` rejecting with error
`e`: the `.catch` callback deletes the entry at the captured key
(unconditionally, as the code does) and the outcome `throw error`
becomes observable to all holders of the handle together with (never
before) that cleanup. -/
def rejectStep (key : String) (e : Int) (s : CacheState) :
    CacheState × Outcome :=
  ({ s with cache := mapDelete s.cache key }, catchHandler (.err e))

/-- Lines 50–52: `memoized.clear()` empties the `Map` and touches
nothing else. -/
def clearStep (s : CacheState) : CacheState :=
  { s with cache := [] }

/-- The wrapper run when `fn` throws synchronously at its call site:
the body runs through lookup and expiry-eviction, then the exception
escapes at `fn(...args)` before `cache.set` is reached.  `Except.error ()`
is the synchronously propagated exception; `Except.ok p` is the cached
handle returned without invoking `fn`. -/
def callStepThrowing (key : String) (now : Int) (s : CacheState) :
    Except Unit Nat × CacheState :=
  match mapFind s.cache key with
  | some entry =>
    if entry.expires > now then
      (Except.ok entry.promise, s)
    else
      (Except.error (), { s with cache := mapDelete s.cache key })
  | none => (Except.error (), s)

/-- Effective TTL of a construction `memoizeAsync(fn, ttlMs)`: the
default parameter `ttlMs = 5000` applies only when the argument is
omitted (or `undefined`); any explicitly passed number, positive or
not, is used as-is. -/
def effectiveTtl : Option Int → Int
  | none => 5000
  | some t => t

/-- A sequence of wrapper runs for one key at the given times. -/
def callMany (key : String) (ttlMs : Int) :
    List Int → CacheState → List Nat × CacheState
  | [], s => ([], s)
  | t :: ts, s =>
    let r := callStep key t ttlMs s
    let rest := callMany key ttlMs ts r.2
    (r.1 :: rest.1, rest.2)

/-- Invocation count after two immediate calls with one key under a
given TTL argument (used to compare TTL defaulting behaviours). -/
def twoCallsInvocations (ttlArg : Option Int) : Nat :=
  (callStep "k" 0 (effectiveTtl ttlArg)
    (callStep "k" 0 (effectiveTtl ttlArg) initState).2).2.invocations

/-! Basic lemmas about the association-list model of the `Map` -/

theorem mapFind_insert_self (m : List (String × Entry)) (k : String) (e : Entry) :
    mapFind (mapInsert m k e) k = some e := by
  induction m with
  | nil => simp [mapInsert, mapFind]
  | cons p rest ih =>
    obtain ⟨k₁, e₁⟩ := p
    by_cases h : k₁ = k <;> simp [mapInsert, mapFind, h, ih]

theorem mapFind_insert_ne (m : List (String × Entry)) (k k₂ : String) (e : Entry)
    (hne : k₂ ≠ k) : mapFind (mapInsert m k e) k₂ = mapFind m k₂ := by
  induction m with
  | nil => simp [mapInsert, mapFind, Ne.symm hne]
  | cons p rest ih =>
    obtain ⟨k₁, e₁⟩ := p
    by_cases h : k₁ = k
    · subst h
      simp [mapInsert, mapFind, Ne.symm hne]
    · simp [mapInsert, mapFind, h, ih]

theorem mapFind_delete_self (m : List (String × Entry)) (k : String) :
    mapFind (mapDelete m k) k = none := by
  induction m with
  | nil => rfl
  | cons p rest ih =>
    obtain ⟨k₁, e₁⟩ := p
    by_cases h : k₁ = k
    · simpa [mapDelete, List.filter_cons, h] using ih
    · simpa [mapDelete, List.filter_cons, bne_iff_ne, h, mapFind] using ih

theorem mapFind_delete_ne (m : List (String × Entry)) (k k₂ : String)
    (hne : k₂ ≠ k) : mapFind (mapDelete m k) k₂ = mapFind m k₂ := by
  induction m with
  | nil => rfl
  | cons p rest ih =>
    obtain ⟨k₁, e₁⟩ := p
    by_cases h : k₁ = k
    · subst h
      simpa [mapDelete, List.filter_cons, mapFind, Ne.symm hne] using ih
    · by_cases h₂ : k₁ = k₂
      · simp [mapDelete, List.filter_cons, bne_iff_ne, h, h₂, hne, mapFind]
      · simpa [mapDelete, List.filter_cons, bne_iff_ne, h, h₂, mapFind] using ih

theorem mapFind_mem (m : List (String × Entry)) (k : String) (e : Entry)
    (h : mapFind m k = some e) : (k, e) ∈ m := by
  induction m with
  | nil => simp [mapFind] at h
  | cons p rest ih =>
    obtain ⟨k₁, e₁⟩ := p
    by_cases hk : k₁ = k
    · subst hk
      simp [mapFind] at h
      subst h
      exact List.mem_cons_self _ _
    · simp [mapFind, hk] at h
      exact List.mem_cons_of_mem _ (ih h)

/-! Lemmas about single wrapper runs -/

theorem callStep_hit (key : String) (now ttlMs : Int) (s : CacheState) (e : Entry)
    (hf : mapFind s.cache key = some e) (hv : e.expires > now) :
    callStep key now ttlMs s = (e.promise, s) := by
  simp [callStep, hf, hv]

theorem callStep_miss (key : String) (now ttlMs : Int) (s : CacheState)
    (hf : mapFind s.cache key = none) :
    callStep key now ttlMs s =
      (s.nextId,
       ⟨mapInsert s.cache key ⟨s.nextId, now + ttlMs⟩, s.nextId + 1,
        s.invocations + 1⟩) := by
  simp [callStep, hf, createAndCache]

theorem callStep_expired (key : String) (now ttlMs : Int) (s : CacheState) (e : Entry)
    (hf : mapFind s.cache key = some e) (hv : e.expires ≤ now) :
    callStep key now ttlMs s =
      (s.nextId,
       ⟨mapInsert (mapDelete s.cache key) key ⟨s.nextId, now + ttlMs⟩,
        s.nextId + 1, s.invocations + 1⟩) := by
  simp [callStep, hf, not_lt_of_le hv, createAndCache]

theorem callMany_cached (key : String) (ttlMs : Int) (ts : List Int)
    (s : CacheState) (e : Entry) (hf : mapFind s.cache key = some e)
    (hts : ∀ t ∈ ts, e.expires > t) :
    callMany key ttlMs ts s = (List.replicate ts.length e.promise, s) := by
  induction ts with
  | nil => simp [callMany]
  | cons t ts ih =>
    have h₁ := callStep_hit key t ttlMs s e hf (hts t (by simp))
    simp [callMany, h₁, ih (fun u hu => hts u (by simp [hu])), List.replicate]

theorem callStep_frame (k₁ k₂ : String) (now ttlMs : Int) (s : CacheState)
    (hne : k₂ ≠ k₁) :
    mapFind (callStep k₁ now ttlMs s).2.cache k₂ = mapFind s.cache k₂ := by
  cases hf : mapFind s.cache k₁ with
  | none => simp [callStep_miss k₁ now ttlMs s hf, mapFind_insert_ne _ _ _ _ hne]
  | some e =>
    by_cases hv : e.expires > now
    · simp [callStep_hit k₁ now ttlMs s e hf hv]
    · simp [callStep_expired k₁ now ttlMs s e hf (le_of_not_lt hv),
        mapFind_insert_ne _ _ _ _ hne, mapFind_delete_ne _ _ _ hne]

/-! Deep structural equality versus serialization, on object-free values -/

mutual

theorem deepEqual_stringify (a b : JsValue) (ha : objFree a = true)
    (hb : objFree b = true) (h : deepEqual a b = true) :
    stringifyVal a = stringifyVal b := by
  cases a with
  | jnull => cases b <;> simp_all [deepEqual]
  | jundef => cases b <;> simp_all [deepEqual, stringifyVal]
  | jbool x => cases b <;> simp_all [deepEqual]
  | jnum x => cases b <;> simp_all [deepEqual]
  | jstr x => cases b <;> simp_all [deepEqual]
  | jfunc i => cases b <;> simp_all [deepEqual]
  | jarr xs =>
    cases b with
    | jarr ys =>
      have hl : stringifyElems xs = stringifyElems ys :=
        deepEqualList_stringify xs ys (by simpa [objFree] using ha)
          (by simpa [objFree] using hb) (by simpa [deepEqual] using h)
      simp [stringifyVal, hl]
    | jnull => simp_all [deepEqual]
    | jundef => simp_all [deepEqual]
    | jbool y => simp_all [deepEqual]
    | jnum y => simp_all [deepEqual]
    | jstr y => simp_all [deepEqual]
    | jfunc j => simp_all [deepEqual]
    | jobj gs => simp_all [deepEqual]
  | jobj fs => simp_all [objFree]

theorem deepEqualList_stringify (xs ys : List JsValue)
    (hx : objFreeList xs = true) (hy : objFreeList ys = true)
    (h : deepEqualList xs ys = true) :
    stringifyElems xs = stringifyElems ys := by
  cases xs with
  | nil =>
    cases ys with
    | nil => rfl
    | cons y ys => simp_all [deepEqualList]
  | cons x xs =>
    cases ys with
    | nil => simp_all [deepEqualList]
    | cons y ys =>
      have h₁ : deepEqual x y = true ∧ deepEqualList xs ys = true := by
        simpa [deepEqualList, Bool.and_eq_true] using h
      have hx₁ : objFree x = true ∧ objFreeList xs = true := by
        simpa [objFreeList, Bool.and_eq_true] using hx
      have hy₁ : objFree y = true ∧ objFreeList ys = true := by
        simpa [objFreeList, Bool.and_eq_true] using hy
      have e₁ := deepEqual_stringify x y hx₁.1 hy₁.1 h₁.1
      have e₂ := deepEqualList_stringify xs ys hx₁.2 hy₁.2 h₁.2
      simp [stringifyElems, e₁, e₂]

end

/-! Claim theorems -/

/-- C1: deduplication of concurrent callers.  A first call at `t0` that
finds no entry for its key starts the underlying computation exactly
once (`invocations` grows by one, the returned handle is the fresh id
`s.nextId`) and publishes the handle into the store, with expiry
`t0 + ttlMs`, within the same atomic wrapper run — hence before the
pending computation can resolve.  Every further call for the same key
issued before any resolution event, at any time inside the TTL window,
returns that identical shared handle and leaves the state (including
the invocation count) completely unchanged.  All callers hold equal
handle ids, so all observe the one shared outcome of that single
invocation. -/
theorem c1_concurrent_dedup (s : CacheState) (key : String) (t0 ttlMs : Int)
    (ts : List Int) (hm : mapFind s.cache key = none)
    (hts : ∀ t ∈ ts, t < t0 + ttlMs) :
    (callStep key t0 ttlMs s).1 = s.nextId ∧
    (callStep key t0 ttlMs s).2.invocations = s.invocations + 1 ∧
    mapFind (callStep key t0 ttlMs s).2.cache key =
      some ⟨(callStep key t0 ttlMs s).1, t0 + ttlMs⟩ ∧
    callMany key ttlMs ts (callStep key t0 ttlMs s).2 =
      (List.replicate ts.length (callStep key t0 ttlMs s).1,
       (callStep key t0 ttlMs s).2) := by
  have hc := callStep_miss key t0 ttlMs s hm
  have h₁ : (callStep key t0 ttlMs s).1 = s.nextId := by rw [hc]
  have h₃ : mapFind (callStep key t0 ttlMs s).2.cache key =
      some ⟨s.nextId, t0 + ttlMs⟩ := by
    rw [hc]; exact mapFind_insert_self _ _ _
  have h₄ := callMany_cached key ttlMs ts (callStep key t0 ttlMs s).2
    ⟨s.nextId, t0 + ttlMs⟩ h₃ (fun t ht => by simpa using hts t ht)
  refine ⟨h₁, by rw [hc], by rw [h₁]; exact h₃, by rw [h₁]; exact h₄⟩

/-- C1 witness: three concrete callers (at times 0, 1 and 2, window
5000 ms starting empty) share handle 0 and the computation runs once. -/
theorem c1_concurrent_dedup_witness :
    mapFind initState.cache "[5]" = none ∧
    (∀ t ∈ ([1, 2] : List Int), t < 0 + 5000) ∧
    ((callStep "[5]" 0 5000 initState).1 = initState.nextId ∧
     (callStep "[5]" 0 5000 initState).2.invocations = initState.invocations + 1 ∧
     mapFind (callStep "[5]" 0 5000 initState).2.cache "[5]" =
       some ⟨(callStep "[5]" 0 5000 initState).1, 0 + 5000⟩ ∧
     callMany "[5]" 5000 [1, 2] (callStep "[5]" 0 5000 initState).2 =
       (List.replicate ([1, 2] : List Int).length (callStep "[5]" 0 5000 initState).1,
        (callStep "[5]" 0 5000 initState).2)) :=
  ⟨rfl, by decide, c1_concurrent_dedup initState "[5]" 0 5000 [1, 2] rfl (by decide)⟩

/-- C2: failures are propagated unmodified and never cached.  When the
pending computation for `key` rejects with error `e`, the catch
callback deletes the entry and re-throws the very same error: the
outcome delivered through the shared handle is exactly `err e` (every
caller holds the same handle id, so every one of them sees it), the
state in which that outcome becomes observable already contains no
entry for `key`, and a subsequent call at any later time `t1` —
however soon — misses and starts a fresh invocation with a fresh
handle instead of returning the cached failure. -/
theorem c2_failure_never_cached (s : CacheState) (key : String)
    (e t1 ttlMs : Int) :
    (rejectStep key e s).2 = Outcome.err e ∧
    mapFind (rejectStep key e s).1.cache key = none ∧
    (callStep key t1 ttlMs (rejectStep key e s).1).2.invocations =
      s.invocations + 1 ∧
    (callStep key t1 ttlMs (rejectStep key e s).1).1 = s.nextId := by
  have h₁ : mapFind (rejectStep key e s).1.cache key = none :=
    mapFind_delete_self _ _
  have h₂ := callStep_miss key t1 ttlMs (rejectStep key e s).1 h₁
  exact ⟨rfl, h₁, by rw [h₂]; rfl, by rw [h₂]; rfl⟩

/-- C3: the failure-completion observer is not guarded by a same-handle
check.  The catch callback runs an unconditional `cache.delete(key)`,
so it removes whatever entry currently sits at the key.  Concretely,
with TTL 100: handle 0 is created at t = 0; at t = 100 the entry is
expired, so a second call evicts it and publishes the fresh handle 1;
when handle 0's still-pending computation then fails, its cleanup
deletes the entry holding the newer handle 1 — the newer entry is not
left untouched, contrary to the claim (and to the code's own comment
"Remove failed promise from cache", since the promise it removes is
not the failed one). -/
theorem c3_cleanup_deletes_newer_entry :
    (callStep "k" 0 100 initState).1 = 0 ∧
    (callStep "k" 100 100 (callStep "k" 0 100 initState).2).1 = 1 ∧
    mapFind (callStep "k" 100 100 (callStep "k" 0 100 initState).2).2.cache "k" =
      some ⟨1, 200⟩ ∧
    mapFind (rejectStep "k" 7
        (callStep "k" 100 100 (callStep "k" 0 100 initState).2).2).1.cache "k" =
      none := by
  decide

/-- C4: TTL discipline.  A first call at `t0` on a key with no entry
stores expiry exactly `t0 + ttlMs`; a second call at any `t1 < t0 + ttlMs`
returns the cached handle with the state (hence the invocation count)
unchanged; a call at any `t2 ≥ t0 + ttlMs` evicts the entry and invokes
the computation again with a distinct fresh handle.  Moreover, in any
state whose handle ids are all older than `nextId`, a call that finds
an expired entry never returns that entry's handle: the expired entry
is evicted and replaced by a fresh one. -/
theorem c4_ttl_expiry (s s₁ : CacheState) (key k : String)
    (t0 t1 t2 now ttlMs : Int) (e : Entry)
    (hm : mapFind s.cache key = none)
    (h1 : t1 < t0 + ttlMs) (h2 : t2 ≥ t0 + ttlMs)
    (hwf : ∀ p ∈ s₁.cache, p.2.promise < s₁.nextId)
    (hf : mapFind s₁.cache k = some e) (hexp : e.expires ≤ now) :
    mapFind (callStep key t0 ttlMs s).2.cache key =
      some ⟨s.nextId, t0 + ttlMs⟩ ∧
    callStep key t1 ttlMs (callStep key t0 ttlMs s).2 =
      ((callStep key t0 ttlMs s).1, (callStep key t0 ttlMs s).2) ∧
    (callStep key t2 ttlMs (callStep key t0 ttlMs s).2).2.invocations =
      s.invocations + 2 ∧
    (callStep key t2 ttlMs (callStep key t0 ttlMs s).2).1 ≠
      (callStep key t0 ttlMs s).1 ∧
    (callStep k now ttlMs s₁).1 ≠ e.promise ∧
    mapFind (callStep k now ttlMs s₁).2.cache k =
      some ⟨s₁.nextId, now + ttlMs⟩ := by
  have hc := callStep_miss key t0 ttlMs s hm
  have h₃ : mapFind (callStep key t0 ttlMs s).2.cache key =
      some ⟨s.nextId, t0 + ttlMs⟩ := by
    rw [hc]; exact mapFind_insert_self _ _ _
  have hhit := callStep_hit key t1 ttlMs (callStep key t0 ttlMs s).2
    ⟨s.nextId, t0 + ttlMs⟩ h₃ (by simpa using h1)
  have hexp₂ := callStep_expired key t2 ttlMs (callStep key t0 ttlMs s).2
    ⟨s.nextId, t0 + ttlMs⟩ h₃ (by simpa using h2)
  have hexp₃ := callStep_expired k now ttlMs s₁ e hf hexp
  have hlt := hwf (k, e) (mapFind_mem s₁.cache k e hf)
  refine ⟨h₃, by rw [hhit, hc], by rw [hexp₂, hc], ?_, ?_, ?_⟩
  · rw [hexp₂, hc]
    exact Nat.succ_ne_self s.nextId
  · rw [hexp₃]
    exact Nat.ne_of_gt hlt
  · rw [hexp₃]
    exact mapFind_insert_self _ _ _

/-- C4 witness: a fresh key cached at t0 = 0 with TTL 5000 is served at
t1 = 4999 and recomputed at t2 = 5000; and in a concrete state with
one entry expired at `now = 100`, that entry's handle is not returned. -/
theorem c4_ttl_expiry_witness :
    mapFind initState.cache "a" = none ∧
    (4999 : Int) < 0 + 5000 ∧ (5000 : Int) ≥ 0 + 5000 ∧
    (∀ p ∈ (⟨[("k", ⟨0, 100⟩)], 1, 1⟩ : CacheState).cache, p.2.promise < 1) ∧
    mapFind (⟨[("k", ⟨0, 100⟩)], 1, 1⟩ : CacheState).cache "k" = some ⟨0, 100⟩ ∧
    (⟨0, 100⟩ : Entry).expires ≤ 100 ∧
    (mapFind (callStep "a" 0 5000 initState).2.cache "a" =
       some ⟨initState.nextId, 0 + 5000⟩ ∧
     callStep "a" 4999 5000 (callStep "a" 0 5000 initState).2 =
       ((callStep "a" 0 5000 initState).1, (callStep "a" 0 5000 initState).2) ∧
     (callStep "a" 5000 5000 (callStep "a" 0 5000 initState).2).2.invocations =
       initState.invocations + 2 ∧
     (callStep "a" 5000 5000 (callStep "a" 0 5000 initState).2).1 ≠
       (callStep "a" 0 5000 initState).1 ∧
     (callStep "k" 100 5000 (⟨[("k", ⟨0, 100⟩)], 1, 1⟩ : CacheState)).1 ≠
       (⟨0, 100⟩ : Entry).promise ∧
     mapFind (callStep "k" 100 5000
         (⟨[("k", ⟨0, 100⟩)], 1, 1⟩ : CacheState)).2.cache "k" =
       some ⟨(⟨[("k", ⟨0, 100⟩)], 1, 1⟩ : CacheState).nextId, 100 + 5000⟩) :=
  ⟨rfl, by decide, by decide, by decide, rfl, by decide,
   c4_ttl_expiry initState ⟨[("k", ⟨0, 100⟩)], 1, 1⟩ "a" "k" 0 4999 5000 100 5000
     ⟨0, 100⟩ rfl (by decide) (by decide) (by decide) rfl (by decide)⟩

/-- C5 counterexample: the code never fails fast on non-serializable
arguments.  `JSON.stringify` renders a function inside the arguments
array as "null", so the two distinct argument tuples `[function #0]`
and `[function #1]` silently collapse onto the single key "[null]",
the underlying computation is attempted, and a cache entry is created
— there is no `KeyDerivationError` anywhere in the code. -/
theorem c5_counterexample :
    [JsValue.jfunc 0] ≠ [JsValue.jfunc 1] ∧
    deriveKey [JsValue.jfunc 0] = deriveKey [JsValue.jfunc 1] ∧
    (memoCall [JsValue.jfunc 0] 0 5000 initState).2.invocations = 1 ∧
    mapFind (memoCall [JsValue.jfunc 0] 0 5000 initState).2.cache
      (deriveKey [JsValue.jfunc 1]) = some ⟨0, 5000⟩ := by
  refine ⟨?_, by decide, by decide, by decide⟩
  intro hEq
  simp at hEq

/-- C5 amended: a call whose argument tuple contains a function value
does not fail at all — the function serializes as "null" inside the
arguments array, so all such single-function tuples share the one key
"[null]", the computation is invoked and an entry is published for
that shared key; distinct non-serializable argument tuples are
therefore silently collapsed onto one key.  (A cyclic argument
structure, which would make `JSON.stringify` throw a `TypeError`, is
not representable in this embedding of values.) -/
theorem c5_amended_function_args (i j : Nat) (now ttlMs : Int) :
    deriveKey [JsValue.jfunc i] = deriveKey [JsValue.jfunc j] ∧
    deriveKey [JsValue.jfunc i] = "[null]" ∧
    (memoCall [JsValue.jfunc i] now ttlMs initState).2.invocations = 1 ∧
    (memoCall [JsValue.jfunc i] now ttlMs initState).1 = 0 ∧
    mapFind (memoCall [JsValue.jfunc i] now ttlMs initState).2.cache
      (deriveKey [JsValue.jfunc j]) = some ⟨0, now + ttlMs⟩ := by
  have hk : deriveKey [JsValue.jfunc i] = "[null]" := rfl
  have hk₂ : deriveKey [JsValue.jfunc j] = "[null]" := rfl
  have hcall := callStep_miss "[null]" now ttlMs initState rfl
  refine ⟨hk.trans hk₂.symm, hk, ?_, ?_, ?_⟩
  · show (callStep (deriveKey [JsValue.jfunc i]) now ttlMs initState).2.invocations = 1
    rw [hk, hcall]
    rfl
  · show (callStep (deriveKey [JsValue.jfunc i]) now ttlMs initState).1 = 0
    rw [hk, hcall]
    rfl
  · show mapFind (callStep (deriveKey [JsValue.jfunc i]) now ttlMs
        initState).2.cache (deriveKey [JsValue.jfunc j]) = some ⟨0, now + ttlMs⟩
    rw [hk, hk₂, hcall]
    exact mapFind_insert_self _ _ _

/-- C6 counterexample: key derivation is sensitive to object key
insertion order.  The argument tuples holding the objects
`\x7ba: 1, b: 2\x7d` and `\x7bb: 2, a: 1\x7d` are equal under deep
structural value comparison (same field sets, same field values), yet
`JSON.stringify` serializes fields in insertion order, so the two
calls derive different keys and are treated as different keys. -/
theorem c6_counterexample :
    deepEqualList [JsValue.jobj [("a", JsValue.jnum 1), ("b", JsValue.jnum 2)]]
        [JsValue.jobj [("b", JsValue.jnum 2), ("a", JsValue.jnum 1)]] = true ∧
    deriveKey [JsValue.jobj [("a", JsValue.jnum 1), ("b", JsValue.jnum 2)]] ≠
      deriveKey [JsValue.jobj [("b", JsValue.jnum 2), ("a", JsValue.jnum 1)]] := by
  decide

/-- C6 amended: key derivation is a pure function of the argument
values (determinism and identity-independence are inherent: `deriveKey`
reads only value content), and for object-free argument tuples deep
structural equality does imply equal keys; but deep-structurally-equal
objects whose fields were inserted in different orders may derive
different keys (see the counterexample), so the equivalence claimed
for all deep-structurally-equal tuples holds only up to field order. -/
theorem c6_amended_objfree_equivalence (xs ys : List JsValue)
    (hx : objFreeList xs = true) (hy : objFreeList ys = true)
    (h : deepEqualList xs ys = true) :
    deriveKey xs = deriveKey ys := by
  have hl := deepEqualList_stringify xs ys hx hy h
  simp [deriveKey, stringifyVal, hl]

/-- C6 amended witness: concrete object-free deep-equal tuples derive
the same key. -/
theorem c6_amended_objfree_equivalence_witness :
    objFreeList [JsValue.jarr [JsValue.jnum 1], JsValue.jstr "x"] = true ∧
    deepEqualList [JsValue.jarr [JsValue.jnum 1], JsValue.jstr "x"]
      [JsValue.jarr [JsValue.jnum 1], JsValue.jstr "x"] = true ∧
    deriveKey [JsValue.jarr [JsValue.jnum 1], JsValue.jstr "x"] =
      deriveKey [JsValue.jarr [JsValue.jnum 1], JsValue.jstr "x"] :=
  ⟨by decide, by decide,
   c6_amended_objfree_equivalence
     [JsValue.jarr [JsValue.jnum 1], JsValue.jstr "x"]
     [JsValue.jarr [JsValue.jnum 1], JsValue.jstr "x"]
     (by decide) (by decide) (by decide)⟩

/-- C7: reset.  `clear()` empties the map; it is idempotent; it
discards every entry unconditionally (regardless of expiry or
in-flight state) while starting or cancelling no computation
(`nextId` and `invocations` are untouched, so the set of started
computations is exactly what it was); a caller already holding a
handle observes the same eventual resolution after the reset as
without it (the outcome travels through the handle, not the map —
here: the observable outcome of a later rejection event is
unchanged); and the very next call for any key at any time, however
much TTL remained, misses and invokes the underlying computation with
a fresh handle. -/
theorem c7_reset (s : CacheState) (key : String) (now ttlMs e : Int) :
    (clearStep s).cache = [] ∧
    clearStep (clearStep s) = clearStep s ∧
    (clearStep s).nextId = s.nextId ∧
    (clearStep s).invocations = s.invocations ∧
    (rejectStep key e (clearStep s)).2 = (rejectStep key e s).2 ∧
    (callStep key now ttlMs (clearStep s)).2.invocations = s.invocations + 1 ∧
    (callStep key now ttlMs (clearStep s)).1 = s.nextId := by
  have h := callStep_miss key now ttlMs (clearStep s) rfl
  exact ⟨rfl, rfl, rfl, rfl, rfl, by rw [h]; rfl, by rw [h]; rfl⟩

/-- C8 counterexample: an explicitly passed non-positive TTL is not
replaced by the 5000 ms default.  With `ttlMs = 0`, two immediate
calls under one key invoke the underlying computation twice, while
under the omitted-argument default (5000 ms) the second call is served
from the cache and the computation runs once — so a zero TTL does not
behave as if constructed with 5000 ms. -/
theorem c8_counterexample :
    twoCallsInvocations (some 0) = 2 ∧
    twoCallsInvocations none = 1 ∧
    twoCallsInvocations (some 0) ≠ twoCallsInvocations none := by
  decide

/-- C8 amended: only an omitted (or `undefined`) TTL argument defaults
to 5000 ms — the default-parameter initializer does not apply to an
explicitly passed zero or negative TTL, which is used as-is.  Such a
TTL makes every entry already expired at every instant from its
creation on (`expires = now + ttlMs ≤ now`), so each later call
re-invokes the computation: in particular a non-positive TTL never
means that entries never expire. -/
theorem c8_amended_ttl_default (t now now₁ : Int) (s : CacheState)
    (key : String) (ht : t ≤ 0) (hn : now ≤ now₁)
    (hm : mapFind s.cache key = none) :
    effectiveTtl none = 5000 ∧
    effectiveTtl (some t) = t ∧
    (callStep key now₁ t (callStep key now t s).2).2.invocations =
      s.invocations + 2 := by
  have hc := callStep_miss key now t s hm
  have h₃ : mapFind (callStep key now t s).2.cache key =
      some ⟨s.nextId, now + t⟩ := by
    rw [hc]; exact mapFind_insert_self _ _ _
  have hexp := callStep_expired key now₁ t (callStep key now t s).2
    ⟨s.nextId, now + t⟩ h₃ (by simp only []; omega)
  exact ⟨rfl, rfl, by rw [hexp, hc]⟩

/-- C8 amended witness: with an explicit TTL of 0 and an empty cache,
two calls at time 0 run the computation twice. -/
theorem c8_amended_ttl_default_witness :
    (0 : Int) ≤ 0 ∧ mapFind initState.cache "k" = none ∧
    (effectiveTtl none = 5000 ∧ effectiveTtl (some 0) = 0 ∧
     (callStep "k" 0 0 (callStep "k" 0 0 initState).2).2.invocations =
       initState.invocations + 2) :=
  ⟨le_refl 0, rfl,
   c8_amended_ttl_default 0 0 0 initState "k" (le_refl 0) (le_refl 0) rfl⟩

/-- C9: non-interference between distinct keys.  For any state, a call
under key k₁ — whatever path it takes — and the failure cleanup of a
k₁ handle leave the entry stored under any other key k₂ exactly as it
was; and two concurrent calls under distinct fresh keys start two
independent computations with distinct handles, the second call also
leaving k₁'s freshly published entry untouched. -/
theorem c9_key_isolation (s s₂ : CacheState) (k₁ k₂ : String)
    (now ttlMs e : Int) (hne : k₂ ≠ k₁)
    (hm1 : mapFind s.cache k₁ = none) (hm2 : mapFind s.cache k₂ = none) :
    mapFind (callStep k₁ now ttlMs s₂).2.cache k₂ = mapFind s₂.cache k₂ ∧
    mapFind (rejectStep k₁ e s₂).1.cache k₂ = mapFind s₂.cache k₂ ∧
    (callStep k₂ now ttlMs (callStep k₁ now ttlMs s).2).1 ≠
      (callStep k₁ now ttlMs s).1 ∧
    (callStep k₂ now ttlMs (callStep k₁ now ttlMs s).2).2.invocations =
      s.invocations + 2 ∧
    mapFind (callStep k₂ now ttlMs (callStep k₁ now ttlMs s).2).2.cache k₁ =
      mapFind (callStep k₁ now ttlMs s).2.cache k₁ := by
  have hc₁ := callStep_miss k₁ now ttlMs s hm1
  have hm₂b : mapFind (callStep k₁ now ttlMs s).2.cache k₂ = none :=
    (callStep_frame k₁ k₂ now ttlMs s hne).trans hm2
  have hc₂ := callStep_miss k₂ now ttlMs (callStep k₁ now ttlMs s).2 hm₂b
  refine ⟨callStep_frame k₁ k₂ now ttlMs s₂ hne,
    mapFind_delete_ne _ _ _ hne, ?_, ?_,
    callStep_frame k₂ k₁ now ttlMs (callStep k₁ now ttlMs s).2 (Ne.symm hne)⟩
  · rw [hc₂, hc₁]
    exact Nat.succ_ne_self s.nextId
  · rw [hc₂, hc₁]

/-- C9 witness: the non-interference statement instantiated at two
concrete distinct keys over the empty starting state. -/
theorem c9_key_isolation_witness :
    ("b" : String) ≠ "a" ∧
    mapFind initState.cache "a" = none ∧ mapFind initState.cache "b" = none ∧
    (mapFind (callStep "a" 0 5000 initState).2.cache "b" =
       mapFind initState.cache "b" ∧
     mapFind (rejectStep "a" 7 initState).1.cache "b" =
       mapFind initState.cache "b" ∧
     (callStep "b" 0 5000 (callStep "a" 0 5000 initState).2).1 ≠
       (callStep "a" 0 5000 initState).1 ∧
     (callStep "b" 0 5000 (callStep "a" 0 5000 initState).2).2.invocations =
       initState.invocations + 2 ∧
     mapFind (callStep "b" 0 5000 (callStep "a" 0 5000 initState).2).2.cache "a" =
       mapFind (callStep "a" 0 5000 initState).2.cache "a") :=
  ⟨by decide, rfl, rfl,
   c9_key_isolation initState initState "a" "b" 0 5000 7 (by decide) rfl rfl⟩

/-- C10 counterexample: a synchronously-throwing underlying function
does not always leave the cache unchanged.  If an expired entry exists
for the key, the wrapper deletes it before reaching `fn(...args)`, so
the synchronous exception escapes with that entry already evicted: the
store differs from its pre-call state. -/
theorem c10_counterexample :
    mapFind (⟨[("k", ⟨0, 100⟩)], 1, 1⟩ : CacheState).cache "k" =
      some ⟨0, 100⟩ ∧
    (callStepThrowing "k" 200 ⟨[("k", ⟨0, 100⟩)], 1, 1⟩).1 =
      Except.error () ∧
    mapFind (callStepThrowing "k" 200
      (⟨[("k", ⟨0, 100⟩)], 1, 1⟩ : CacheState)).2.cache "k" = none :=
  ⟨rfl, rfl, rfl⟩

/-- C10 amended: when the underlying function throws synchronously at
its call site, the exception propagates synchronously and no entry is
created for the key; entries under every other key are untouched; on a
key with no prior entry the whole state is unchanged; and the wrapper
starts no handle (`nextId`, `invocations` untouched).  The one
deviation from the claim: a *pre-existing expired* entry for the same
key is evicted before the throw, so the cache is not always unchanged
(see the counterexample). -/
theorem c10_amended_sync_throw (s s₂ : CacheState) (key k₂ : String)
    (now now₂ : Int) (hne : k₂ ≠ key)
    (hm : mapFind s.cache key = none)
    (hthrow : (callStepThrowing key now₂ s₂).1 = Except.error ()) :
    callStepThrowing key now s = (Except.error (), s) ∧
    mapFind (callStepThrowing key now₂ s₂).2.cache k₂ = mapFind s₂.cache k₂ ∧
    mapFind (callStepThrowing key now₂ s₂).2.cache key = none ∧
    (callStepThrowing key now₂ s₂).2.nextId = s₂.nextId ∧
    (callStepThrowing key now₂ s₂).2.invocations = s₂.invocations := by
  cases hf : mapFind s₂.cache key with
  | none =>
    have hrun : callStepThrowing key now₂ s₂ = (Except.error (), s₂) := by
      simp [callStepThrowing, hf]
    exact ⟨by simp [callStepThrowing, hm], by rw [hrun], by rw [hrun]; exact hf,
      by rw [hrun], by rw [hrun]⟩
  | some entry =>
    by_cases hv : entry.expires > now₂
    · have hok : (callStepThrowing key now₂ s₂).1 = Except.ok entry.promise := by
        simp [callStepThrowing, hf, hv]
      rw [hok] at hthrow
      exact Except.noConfusion hthrow
    · have hrun : callStepThrowing key now₂ s₂ =
          (Except.error (), { s₂ with cache := mapDelete s₂.cache key }) := by
        simp [callStepThrowing, hf, hv]
      refine ⟨by simp [callStepThrowing, hm], ?_, ?_, by rw [hrun], by rw [hrun]⟩
      · rw [hrun]
        exact mapFind_delete_ne _ _ _ hne
      · rw [hrun]
        exact mapFind_delete_self _ _

/-- C10 amended witness: concrete instantiation with a fresh key on
the empty state and an expired entry for the throwing path. -/
theorem c10_amended_sync_throw_witness :
    ("j" : String) ≠ "k" ∧
    mapFind initState.cache "k" = none ∧
    (callStepThrowing "k" 200 (⟨[("k", ⟨0, 100⟩)], 1, 1⟩ : CacheState)).1 =
      Except.error () ∧
    (callStepThrowing "k" 0 initState = (Except.error (), initState) ∧
     mapFind (callStepThrowing "k" 200
         (⟨[("k", ⟨0, 100⟩)], 1, 1⟩ : CacheState)).2.cache "j" =
       mapFind (⟨[("k", ⟨0, 100⟩)], 1, 1⟩ : CacheState).cache "j" ∧
     mapFind (callStepThrowing "k" 200
         (⟨[("k", ⟨0, 100⟩)], 1, 1⟩ : CacheState)).2.cache "k" = none ∧
     (callStepThrowing "k" 200
         (⟨[("k", ⟨0, 100⟩)], 1, 1⟩ : CacheState)).2.nextId = 1 ∧
     (callStepThrowing "k" 200
         (⟨[("k", ⟨0, 100⟩)], 1, 1⟩ : CacheState)).2.invocations = 1) :=
  ⟨by decide, rfl, rfl,
   c10_amended_sync_throw initState ⟨[("k", ⟨0, 100⟩)], 1, 1⟩ "k" "j" 0 200
     (by decide) rfl rfl⟩

end MemoSpec
